import Mathlib

/-!
Verification development for the DailySync-UPSC content pipeline.

The Python sources are shallowly embedded as Lean definitions:

* `src/utils/utils.py`      → `extract_json_block`
* `src/agents/analyse.py`   → `extract_sections`
* `src/agents/cards.py`     → `create_cards`
* `src/agents/mindmap.py`   → `create_mindmap`
* `src/agents/pyq.py`       → `create_pyq`
* `src/agents/review.py`    → `review_sections`, `review_cards`,
                              `review_mindmap`, `review_pyq`, `review_all_content`
* `src/services/content.py` → `processSection`, `contentLoopGo`, `retryLoop`,
                              `generate_and_save_content`
* `src/services/db_service.py` → `save_daily_content`

External effects (the Gemini generation client, the scraper's network I/O,
Firestore writes, and Python's `json.loads`) are modelled as oracle
parameters: a raw response string per generation call, a typed parse
function standing for `json.loads` at the shape each call site expects
(returning `none` when `json.loads` would raise `JSONDecodeError` or the
parsed value does not have that shape), a per-attempt success flag for the
Firestore write, and per-attempt clock readings for `datetime.now()`.
Python `float` scores are modelled as rationals, exceptions as `Except`,
and dict values of dynamically checked type (`isinstance` guards) with the
`Duck` wrapper below.
-/

/-- Characters of a Python `str`; string scanning is done on this type. -/
abbrev Str := List Char

/-- `begins p l` : `p` is a prefix of `l` (decidable scanning primitive). -/
def begins : Str → Str → Bool
  | [], _ => true
  | _ :: _, [] => false
  | p :: ps, c :: cs => p == c && begins ps cs

/-- Split a character list at the first occurrence of the pattern `p`,
returning the part strictly before the occurrence and the part strictly
after it, or `none` when `p` does not occur.  This is the semantics of a
leftmost regex match on a literal pattern. -/
def splitFirst (p : Str) : Str → Option (Str × Str)
  | [] => none
  | c :: cs =>
    if begins p (c :: cs) then some ([], List.drop p.length (c :: cs))
    else (splitFirst p cs).map (fun pr => (c :: pr.1, pr.2))

/-- The opening fence `"```json"` of `r'```json\s*(.*?)\s*```'`. -/
def jsonOpenFence : Str := ("```json").toList

/-- The closing fence `"```"`. -/
def jsonCloseFence : Str := ("```").toList

/-- Drop leading whitespace characters. -/
def dropLeadingWs : Str → Str
  | [] => []
  | c :: cs => if c.isWhitespace then dropLeadingWs cs else c :: cs

/-- Python `str.strip()` with no argument: remove leading and trailing
whitespace (the regex `\s*` context makes the exact whitespace alphabet
irrelevant here; we use `Char.isWhitespace`). -/
def pyStrip (l : Str) : Str := ((dropLeadingWs ((dropLeadingWs l).reverse)).reverse)

/-- `src/utils/utils.py` `extract_json_block`:
`re.search(r'```json\s*(.*?)\s*```', text, re.DOTALL)` followed by
`.group(1).strip()`, or `None` when there is no match.

Translation of the regex: the match must start with the literal
`"```json"`, so the leftmost match starts at the first occurrence of that
literal (the literal cannot overlap itself, so if the first occurrence has
no closing `"```"` after it, no later occurrence can have one, since every
later occurrence of `"```json"` itself contains `"```"`).  The lazy group
`(.*?)` makes the match end at the first `"```"` after the opening fence.
The surrounding `\s*` pieces only shave whitespace off the two ends of the
group, and the subsequent Python `.strip()` removes any whitespace they
left, so `group(1).strip()` equals the whitespace-trimmed text strictly
between the end of the first `"```json"` and the next `"```"`. -/
def extract_json_block (text : String) : Option String :=
  match splitFirst jsonOpenFence text.toList with
  | none => none
  | some pr =>
    match splitFirst jsonCloseFence pr.2 with
    | none => none
    | some pr2 => some (String.mk (pyStrip pr2.1))

/-- Python truthiness of the `str | None` produced by `extract_json_block`:
`None` and the empty string are falsy (`if not json_payload:`). -/
def pyFalsy : Option String → Bool
  | none => true
  | some s => s.isEmpty

/-- `∃ u v, l = u ++ p ++ v` : the pattern `p` occurs somewhere in `l`. -/
def ContainsSub (p l : Str) : Prop := ∃ u v : Str, l = u ++ p ++ v

/-- A Python value that either has the dict/list shape the pipeline expects
(`obj`) or is some other JSON value (`raw`); `isinstance` checks in
`src/services/content.py` branch on this distinction. -/
inductive Duck (α : Type) where
  | obj (a : α)
  | raw
deriving DecidableEq

/-- A Section dict produced by the Extractor (`title`, `content` as an
array of bullet strings, `importance`).  `title` is optional because the
loop reads it with `section.get("title", ...)`. -/
structure SectionS where
  title : Option String
  content : List String
  importance : Option String
deriving DecidableEq

/-- A recall-card dict (`src/agents/cards.py` output shape); the two
back-reference fields are absent until the aggregation loop sets them. -/
structure Card where
  title : String
  gs : String
  tags : List String
  summary : String
  cta_buttons : String
  section_index : Option Nat := none
  section_title : Option String := none
deriving DecidableEq

/-- A mind-map tree node (`name` plus children). -/
inductive MMNode where
  | node (name : String) (children : List MMNode)

/-- A mind-map dict (`src/agents/mindmap.py` output shape). -/
structure MindMap where
  title : String
  nodes : List MMNode
  section_index : Option Nat := none
  section_title : Option String := none

/-- A prelims MCQ dict; `options` is the JSON object mapping option keys to
option text, kept as an association list. -/
structure Prelim where
  question : String
  options : List (String × String)
  correct_answer : String
  explanation : String
  gs_paper : String
  year : String
  section_index : Option Nat := none
  section_title : Option String := none
deriving DecidableEq

/-- A mains-question dict (`type` holds the marks string, e.g. "10 marks"). -/
structure Mains where
  question : String
  type : String
  gs_paper : String
  year : String
  key_points : List String
  section_index : Option Nat := none
  section_title : Option String := none
deriving DecidableEq

/-- The dict returned by `create_pyq`.  A field is `none` when the key is
absent (`"rubrics" in pyq` fails), `some Duck.raw` when the key is present
but its value is not a list, and `some (Duck.obj l)` otherwise; elements of
`l` that are not dicts are `Duck.raw`. -/
structure PyqR where
  prelims : Option (Duck (List (Duck Prelim))) := none
  mains : Option (Duck (List (Duck Mains))) := none
deriving DecidableEq

/-- The orchestrator's global question aggregate
`all_pyqs = {"prelims": [...], "mains": [...]}`. -/
structure PyqAgg where
  prelims : List (Duck Prelim)
  mains : List (Duck Mains)
deriving DecidableEq

/-- Python exceptions that the embedded code can raise. -/
inductive PyErr where
  | typeError
  | jsonDecodeError
  | valueError (msg : String)
  | exception (msg : String)
deriving DecidableEq

/-- `src/agents/cards.py` `create_cards`: build a prompt from `content`,
call the generation client (whose raw text response is the oracle `raw`),
extract the fenced JSON block and `json.loads` it with no error handling.
`json.loads(None)` raises `TypeError` when no block was found;
a malformed payload raises `JSONDecodeError`. -/
def create_cards (parse : String → Option (Duck (List (Duck Card))))
    (content raw : String) : Except PyErr (Duck (List (Duck Card))) :=
  match extract_json_block raw with
  | none => .error PyErr.typeError
  | some payload =>
    match parse payload with
    | none => .error PyErr.jsonDecodeError
    | some v => .ok v

/-- `src/agents/mindmap.py` `create_mindmap`: same raw `json.loads` of the
extracted block, no error handling. -/
def create_mindmap (parse : String → Option (Duck MindMap))
    (content raw : String) : Except PyErr (Duck MindMap) :=
  match extract_json_block raw with
  | none => .error PyErr.typeError
  | some payload =>
    match parse payload with
    | none => .error PyErr.jsonDecodeError
    | some v => .ok v

/-- `src/agents/pyq.py` `create_pyq`: same raw `json.loads` of the
extracted block, no error handling. -/
def create_pyq (parse : String → Option (Duck PyqR))
    (content raw : String) : Except PyErr (Duck PyqR) :=
  match extract_json_block raw with
  | none => .error PyErr.typeError
  | some payload =>
    match parse payload with
    | none => .error PyErr.jsonDecodeError
    | some v => .ok v

/-- `src/agents/analyse.py` `extract_sections`: extract the fenced block
from the model response and `json.loads` it inside
`try ... except json.JSONDecodeError: raise ValueError(...)`.
When no block exists the payload is `None` and `json.loads(None)` raises
`TypeError`, which that `except` clause does not catch. -/
def extract_sections (parse : String → Option (List SectionS))
    (article_text raw : String) : Except PyErr (List SectionS) :=
  match extract_json_block raw with
  | none => .error PyErr.typeError
  | some payload =>
    match parse payload with
    | none => .error (PyErr.valueError ("Model returned invalid JSON"))
    | some v => .ok v

/-- The three fields common to every `review_notes` dict, as read by
`review_all_content` (`issues_found`, `corrections_made`,
`accuracy_score`). -/
structure ReviewNotes where
  issues_found : List String
  corrections_made : List String
  accuracy_score : ℚ
deriving DecidableEq

/-- `review_notes` of the sections review (second score key
`completeness_score`). -/
structure SectionsReviewNotes extends ReviewNotes where
  completeness_score : ℚ
deriving DecidableEq

/-- `review_notes` of the cards and pyq reviews (second score key
`quality_score`). -/
structure QualityReviewNotes extends ReviewNotes where
  quality_score : ℚ
deriving DecidableEq

/-- `review_notes` of the per-mindmap review (second score key
`structure_score`). -/
structure StructureReviewNotes extends ReviewNotes where
  structure_score : ℚ
deriving DecidableEq

/-- Shape of `review_sections`'s result dict. -/
structure SectionsReview (α : Type) where
  corrected_sections : List α
  review_notes : SectionsReviewNotes
deriving DecidableEq

/-- Shape of `review_cards`'s result dict. -/
structure CardsReview (β : Type) where
  corrected_cards : List β
  review_notes : QualityReviewNotes
deriving DecidableEq

/-- Shape of `review_mindmap`'s result dict. -/
structure MindmapReview (γ : Type) where
  corrected_mindmap : γ
  review_notes : StructureReviewNotes
deriving DecidableEq

/-- Shape of `review_pyq`'s result dict. -/
structure PyqReview (δ : Type) where
  corrected_pyq : δ
  review_notes : QualityReviewNotes
deriving DecidableEq

/-- `src/agents/review.py` `review_sections`: build the review prompt from
`sections` and `original_text`, call the client (raw response = oracle
`raw`), extract the fenced JSON payload; `if not json_payload:` (falsy:
`None` or empty) fall back to the original sections with a synthetic note;
otherwise `json.loads` it, falling back likewise on `JSONDecodeError`. -/
def review_sections {α : Type} (parse : String → Option (SectionsReview α))
    (raw : String) (sections : List α) (original_text : String) :
    SectionsReview α :=
  let json_payload := extract_json_block raw
  if pyFalsy json_payload then
    { corrected_sections := sections,
      review_notes :=
        { issues_found := ["Failed to parse review response"],
          corrections_made := [], accuracy_score := 0, completeness_score := 0 } }
  else
    match parse (json_payload.getD ("")) with
    | some result => result
    | none =>
      { corrected_sections := sections,
        review_notes :=
          { issues_found := ["Invalid JSON in review response"],
            corrections_made := [], accuracy_score := 0, completeness_score := 0 } }

/-- `src/agents/review.py` `review_cards`: same protocol over the cards
collection. -/
def review_cards {β : Type} (parse : String → Option (CardsReview β))
    (raw : String) (cards : List β) (original_text : String) :
    CardsReview β :=
  let json_payload := extract_json_block raw
  if pyFalsy json_payload then
    { corrected_cards := cards,
      review_notes :=
        { issues_found := ["Failed to parse review response"],
          corrections_made := [], accuracy_score := 0, quality_score := 0 } }
  else
    match parse (json_payload.getD ("")) with
    | some result => result
    | none =>
      { corrected_cards := cards,
        review_notes :=
          { issues_found := ["Invalid JSON in review response"],
            corrections_made := [], accuracy_score := 0, quality_score := 0 } }

/-- `src/agents/review.py` `review_mindmap`: same protocol over one
mindmap. -/
def review_mindmap {γ : Type} (parse : String → Option (MindmapReview γ))
    (raw : String) (mindmap : γ) (original_text : String) :
    MindmapReview γ :=
  let json_payload := extract_json_block raw
  if pyFalsy json_payload then
    { corrected_mindmap := mindmap,
      review_notes :=
        { issues_found := ["Failed to parse review response"],
          corrections_made := [], accuracy_score := 0, structure_score := 0 } }
  else
    match parse (json_payload.getD ("")) with
    | some result => result
    | none =>
      { corrected_mindmap := mindmap,
        review_notes :=
          { issues_found := ["Invalid JSON in review response"],
            corrections_made := [], accuracy_score := 0, structure_score := 0 } }

/-- `src/agents/review.py` `review_pyq`: same protocol over the question
aggregate. -/
def review_pyq {δ : Type} (parse : String → Option (PyqReview δ))
    (raw : String) (pyq : δ) (original_text : String) :
    PyqReview δ :=
  let json_payload := extract_json_block raw
  if pyFalsy json_payload then
    { corrected_pyq := pyq,
      review_notes :=
        { issues_found := ["Failed to parse review response"],
          corrections_made := [], accuracy_score := 0, quality_score := 0 } }
  else
    match parse (json_payload.getD ("")) with
    | some result => result
    | none =>
      { corrected_pyq := pyq,
        review_notes :=
          { issues_found := ["Invalid JSON in review response"],
            corrections_made := [], accuracy_score := 0, quality_score := 0 } }

/-- The `overall_review` aggregate computed by `review_all_content`. -/
structure OverallReview where
  total_issues : Nat
  total_corrections : Nat
  average_accuracy : ℚ
deriving DecidableEq

/-- The full result dict of `review_all_content`. -/
structure AllReviewResults (α β γ δ : Type) where
  sections : SectionsReview α
  cards : CardsReview β
  mindmaps : List (MindmapReview γ)
  pyq : PyqReview δ
  overall_review : OverallReview
deriving DecidableEq

/-- `src/agents/review.py` `review_all_content`: one review call each for
sections, cards and pyq, then one call per mindmap (responses
`rawMm 0, rawMm 1, ...` in list order), then the aggregate metrics over
the collected `review_notes`. -/
def review_all_content {α β γ δ : Type}
    (parseSec : String → Option (SectionsReview α))
    (parseCards : String → Option (CardsReview β))
    (parseMm : String → Option (MindmapReview γ))
    (parsePyq : String → Option (PyqReview δ))
    (rawSec rawCards rawPyq : String) (rawMm : Nat → String)
    (sections : List α) (cards : List β) (mindmaps : List γ) (pyq : δ)
    (original_text : String) : AllReviewResults α β γ δ :=
  let secR := review_sections parseSec rawSec sections original_text
  let cardR := review_cards parseCards rawCards cards original_text
  let pyqR := review_pyq parsePyq rawPyq pyq original_text
  let mmR := mindmaps.enum.map (fun p => review_mindmap parseMm (rawMm p.1) p.2 original_text)
  let all_notes : List ReviewNotes :=
    [secR.review_notes.toReviewNotes, cardR.review_notes.toReviewNotes,
      pyqR.review_notes.toReviewNotes] ++ mmR.map (fun r => r.review_notes.toReviewNotes)
  let accuracy_scores := all_notes.map (fun n => n.accuracy_score)
  { sections := secR,
    cards := cardR,
    mindmaps := mmR,
    pyq := pyqR,
    overall_review :=
      { total_issues := (all_notes.map (fun n => n.issues_found.length)).sum,
        total_corrections := (all_notes.map (fun n => n.corrections_made.length)).sum,
        average_accuracy :=
          if accuracy_scores.isEmpty then 0
          else accuracy_scores.sum / (accuracy_scores.length : ℚ) } }

/-- `"\n".join(section.get("content", []))` from the aggregation loop. -/
def sectionText (s : SectionS) : String := String.intercalate ("\n") s.content

/-- `section.get("title", f"Section {section_index + 1}")`. -/
def sectionTitleOf (i : Nat) (s : SectionS) : String :=
  s.title.getD ("Section " ++ toString (i + 1))

/-- Set `card["section_index"]`/`card["section_title"]` on dict elements;
non-dict list elements are left as they are (the loop's inner
`isinstance(card, dict)` guard). -/
def tagCard (i : Nat) (t : String) : Duck Card → Duck Card
  | .obj c => .obj { c with section_index := some i, section_title := some t }
  | .raw => .raw

/-- Tag a mindmap when it is a dict (`isinstance(mindmap, dict)`). -/
def tagMindmap (i : Nat) (t : String) : Duck MindMap → Duck MindMap
  | .obj m => .obj { m with section_index := some i, section_title := some t }
  | .raw => .raw

/-- Tag a prelim question when it is a dict. -/
def tagPrelim (i : Nat) (t : String) : Duck Prelim → Duck Prelim
  | .obj q => .obj { q with section_index := some i, section_title := some t }
  | .raw => .raw

/-- Tag a mains question when it is a dict. -/
def tagMains (i : Nat) (t : String) : Duck Mains → Duck Mains
  | .obj q => .obj { q with section_index := some i, section_title := some t }
  | .raw => .raw

/-- The orchestrator's mutable aggregates for one attempt. -/
structure Aggregates where
  all_cards : List (Duck Card)
  all_mindmaps : List (Duck MindMap)
  all_pyqs : PyqAgg

/-- Initial empty aggregates (`[]`, `[]`, `{"prelims": [], "mains": []}`). -/
def emptyAggregates : Aggregates :=
  { all_cards := [], all_mindmaps := [], all_pyqs := { prelims := [], mains := [] } }

/-- One iteration of the aggregation loop in
`src/services/content.py` `generate_and_save_content` (Step 3): generate
cards, mindmap and questions for one section and fold them into the
aggregates.  The generator oracles take the section position (identifying
the call) and the joined section text (the Python argument). -/
def processSection
    (cc : Nat → String → Except PyErr (Duck (List (Duck Card))))
    (cm : Nat → String → Except PyErr (Duck MindMap))
    (cp : Nat → String → Except PyErr (Duck PyqR))
    (section_index : Nat) (s : SectionS) (agg : Aggregates) :
    Except PyErr Aggregates :=
  let section_text := sectionText s
  let section_title := sectionTitleOf section_index s
  match cc section_index section_text with
  | .error e => .error e
  | .ok section_cards =>
    let agg1 :=
      match section_cards with
      | .obj cs =>
        { agg with all_cards := agg.all_cards ++ cs.map (tagCard section_index section_title) }
      | .raw => agg
    match cm section_index section_text with
    | .error e => .error e
    | .ok mindmap =>
      let agg2 := { agg1 with
        all_mindmaps := agg1.all_mindmaps ++ [tagMindmap section_index section_title mindmap] }
      match cp section_index section_text with
      | .error e => .error e
      | .ok pyq =>
        match pyq with
        | .obj p =>
          let agg3 :=
            match p.prelims with
            | some (.obj l) =>
              { agg2 with all_pyqs :=
                { agg2.all_pyqs with
                  prelims := agg2.all_pyqs.prelims ++ l.map (tagPrelim section_index section_title) } }
            | _ => agg2
          match p.mains with
          | some (.obj l) =>
            .ok { agg3 with all_pyqs :=
              { agg3.all_pyqs with
                mains := agg3.all_pyqs.mains ++ l.map (tagMains section_index section_title) } }
          | _ => .ok agg3
        | .raw => .ok agg2

/-- The full `for section_index, section in enumerate(sections):` loop,
starting at position `i` with accumulated aggregates `agg`. -/
def contentLoopGo
    (cc : Nat → String → Except PyErr (Duck (List (Duck Card))))
    (cm : Nat → String → Except PyErr (Duck MindMap))
    (cp : Nat → String → Except PyErr (Duck PyqR)) :
    Nat → List SectionS → Aggregates → Except PyErr Aggregates
  | _, [], agg => .ok agg
  | i, s :: rest, agg =>
    match processSection cc cm cp i s agg with
    | .error e => .error e
    | .ok agg2 => contentLoopGo cc cm cp (i + 1) rest agg2

/-- A Firestore document for one date key.  Every field is optional:
merge-upsert writes can leave fields of an existing document untouched. -/
structure Doc (α β γ δ ε : Type) where
  date : Option String := none
  sections : Option α := none
  cards : Option β := none
  mindmap : Option γ := none
  pyq : Option δ := none
  overall_review : Option ε := none
  created_at : Option Nat := none
  updated_at : Option Nat := none
deriving DecidableEq

/-- The `daily_content` collection, keyed by date string. -/
abbrev Store (α β γ δ ε : Type) := String → Option (Doc α β γ δ ε)

/-- `doc_ref.set(data, merge=True)`: fields present in `data` replace the
old document's fields; absent fields are kept. -/
def mergeDoc {α β γ δ ε : Type} (old : Option (Doc α β γ δ ε))
    (new : Doc α β γ δ ε) : Doc α β γ δ ε :=
  match old with
  | none => new
  | some o =>
    { date := new.date <|> o.date,
      sections := new.sections <|> o.sections,
      cards := new.cards <|> o.cards,
      mindmap := new.mindmap <|> o.mindmap,
      pyq := new.pyq <|> o.pyq,
      overall_review := new.overall_review <|> o.overall_review,
      created_at := new.created_at <|> o.created_at,
      updated_at := new.updated_at <|> o.updated_at }

/-- `src/services/db_service.py` `save_daily_content`: build the document
data with every field present, `created_at`/`updated_at` from the two
`datetime.now()` calls (`t1`, `t2`), and merge-upsert it at the date key.
`writeOk` is the oracle for whether `doc_ref.set` succeeds; on a raise the
`except` clause returns `False` and the store is unchanged. -/
def save_daily_content {α β γ δ ε : Type} (writeOk : Bool) (t1 t2 : Nat)
    (date : String) (sections : α) (cards : β) (mindmap : γ) (pyq : δ)
    (overall_review : ε) (db : Store α β γ δ ε) : Store α β γ δ ε × Bool :=
  if writeOk then
    (fun k =>
      if k = date then
        some (mergeDoc (db k)
          { date := some date, sections := some sections, cards := some cards,
            mindmap := some mindmap, pyq := some pyq,
            overall_review := some overall_review,
            created_at := some t1, updated_at := some t2 })
      else db k, true)
  else (db, false)

/-- The `{"mindmaps": corrected_mindmaps}` wrapper persisted in the
`mindmap` field. -/
structure MindmapsWrapper (γ : Type) where
  mindmaps : List γ
deriving DecidableEq

/-- The store as instantiated by the orchestrator. -/
abbrev PipelineStore :=
  Store (List SectionS) (List (Duck Card)) (MindmapsWrapper (Duck MindMap)) PyqAgg OverallReview

/-- The `review_summary` sub-dict of the orchestrator's success result. -/
structure ReviewSummary where
  total_issues : Nat
  total_corrections : Nat
  average_accuracy : ℚ
deriving DecidableEq

/-- The dict returned by a successful `generate_and_save_content` run. -/
structure RunSummary where
  message : String
  date : String
  sections_count : Nat
  cards_count : Nat
  mindmaps_count : Nat
  prelims_count : Nat
  mains_count : Nat
  review_summary : ReviewSummary
deriving DecidableEq

/-- The behaviors of every external collaborator, per attempt `k` (first
component of each response oracle) and, for the per-section generation
calls, per section position.  `scrape` models `scrape_all_articles` (pure
network/file I/O), `clock k` the two `datetime.now()` readings of the
attempt's save, `writeOk k` whether the attempt's Firestore write
succeeds. -/
structure Env where
  scrape : Nat → Except PyErr String
  extractResp : Nat → String
  parseSections : String → Option (List SectionS)
  cardsResp : Nat → Nat → String
  parseCards : String → Option (Duck (List (Duck Card)))
  mindmapResp : Nat → Nat → String
  parseMindmap : String → Option (Duck MindMap)
  pyqResp : Nat → Nat → String
  parsePyq : String → Option (Duck PyqR)
  reviewSecResp : Nat → String
  parseReviewSec : String → Option (SectionsReview SectionS)
  reviewCardsResp : Nat → String
  parseReviewCards : String → Option (CardsReview (Duck Card))
  reviewMmResp : Nat → Nat → String
  parseReviewMm : String → Option (MindmapReview (Duck MindMap))
  reviewPyqResp : Nat → String
  parseReviewPyq : String → Option (PyqReview PyqAgg)
  writeOk : Nat → Bool
  clock : Nat → Nat × Nat

/-- How one iteration of the retry loop ends.  The Python `try` body can
return the success dict, hit the empty-extraction branch, hit the
persistence-failure branch, or raise (any stage); the three failure kinds
are all retried identically. -/
inductive AttemptOutcome where
  | ok (summary : RunSummary)
  | emptyExtraction
  | persistFailed
  | raised (e : PyErr)
deriving DecidableEq

/-- One iteration (attempt `k`) of the `for attempt in range(MAX_RETRIES)`
body of `src/services/content.py` `generate_and_save_content`:
scrape, extract, check for empty sections, run the per-section generation
loop, review everything, persist, and build the success summary. -/
def runAttempt (E : Env) (date : String) (k : Nat) (db : PipelineStore) :
    AttemptOutcome × PipelineStore :=
  match E.scrape k with
  | .error e => (.raised e, db)
  | .ok article =>
    match extract_sections E.parseSections article (E.extractResp k) with
    | .error e => (.raised e, db)
    | .ok sections =>
      if sections.isEmpty then (.emptyExtraction, db)
      else
        match contentLoopGo
            (fun i t => create_cards E.parseCards t (E.cardsResp k i))
            (fun i t => create_mindmap E.parseMindmap t (E.mindmapResp k i))
            (fun i t => create_pyq E.parsePyq t (E.pyqResp k i))
            0 sections emptyAggregates with
        | .error e => (.raised e, db)
        | .ok agg =>
          let review_results := review_all_content
            E.parseReviewSec E.parseReviewCards E.parseReviewMm E.parseReviewPyq
            (E.reviewSecResp k) (E.reviewCardsResp k) (E.reviewPyqResp k)
            (E.reviewMmResp k)
            sections agg.all_cards agg.all_mindmaps agg.all_pyqs article
          let corrected_sections := review_results.sections.corrected_sections
          let corrected_cards := review_results.cards.corrected_cards
          let corrected_mindmaps := review_results.mindmaps.map (fun r => r.corrected_mindmap)
          let corrected_pyq := review_results.pyq.corrected_pyq
          let overall_review := review_results.overall_review
          let saved := save_daily_content (E.writeOk k) (E.clock k).1 (E.clock k).2
            date corrected_sections corrected_cards
            { mindmaps := corrected_mindmaps } corrected_pyq overall_review db
          if saved.2 then
            (.ok
              { message := "Content generated and saved successfully",
                date := date,
                sections_count := corrected_sections.length,
                cards_count := corrected_cards.length,
                mindmaps_count := corrected_mindmaps.length,
                prelims_count := corrected_pyq.prelims.length,
                mains_count := corrected_pyq.mains.length,
                review_summary :=
                  { total_issues := overall_review.total_issues,
                    total_corrections := overall_review.total_corrections,
                    average_accuracy := overall_review.average_accuracy } }, saved.1)
          else (.persistFailed, saved.1)

/-- `MAX_RETRIES = 3` (src/services/content.py). -/
def MAX_RETRIES : Nat := 3

/-- `RETRY_DELAY = 5  # seconds` (src/services/content.py). -/
def RETRY_DELAY : Nat := 5

/-- What one whole run produced: the returned value, the number of loop
iterations begun (= number of `scrape_all_articles` invocations), the
total time slept, and the final store state. -/
structure RunResult where
  result : Option RunSummary
  attempts : Nat
  total_delay : Nat
  store : PipelineStore

/-- The `for attempt in range(MAX_RETRIES)` loop with `fuel` iterations
remaining, the current iteration index `attempt`, and the sleep time
accumulated so far.  On any non-success outcome: if further iterations
remain (`attempt < MAX_RETRIES - 1` in Python, `fuel ≠ 0` here after
peeling the current iteration), sleep `RETRY_DELAY` and continue, else
return `None`. -/
def retryLoop (E : Env) (date : String) :
    Nat → Nat → Nat → PipelineStore → RunResult
  | 0, attempt, delay, db =>
    { result := none, attempts := attempt, total_delay := delay, store := db }
  | fuel + 1, attempt, delay, db =>
    let step := runAttempt E date attempt db
    match step.1 with
    | .ok s =>
      { result := some s, attempts := attempt + 1, total_delay := delay, store := step.2 }
    | _ =>
      if fuel == 0 then
        { result := none, attempts := attempt + 1, total_delay := delay, store := step.2 }
      else retryLoop E date fuel (attempt + 1) (delay + RETRY_DELAY) step.2

/-- `src/services/content.py` `generate_and_save_content`. -/
def generate_and_save_content (E : Env) (date : String) (db : PipelineStore) :
    RunResult :=
  retryLoop E date MAX_RETRIES 0 0 db

/-- An attempt outcome that triggers the retry path (anything except the
success return). -/
def attemptFailed (o : AttemptOutcome) : Prop := ∀ s, o ≠ AttemptOutcome.ok s

/-- The cards contributed by section `s` at position `i`, as the loop
appends them: the generator's list (when it is a list) with every dict
element tagged, in generator order; nothing otherwise. -/
def segCards (cc : Nat → String → Duck (List (Duck Card))) (i : Nat)
    (s : SectionS) : List (Duck Card) :=
  match cc i (sectionText s) with
  | .obj cs => cs.map (tagCard i (sectionTitleOf i s))
  | .raw => []

/-- Index-ordered concatenation of per-section card segments from
position `i` on. -/
def flatCardsFrom (cc : Nat → String → Duck (List (Duck Card))) :
    Nat → List SectionS → List (Duck Card)
  | _, [] => []
  | i, s :: rest => segCards cc i s ++ flatCardsFrom cc (i + 1) rest

/-- The prelims contributed by section `s` at position `i`. -/
def segPrelims (cp : Nat → String → Duck PyqR) (i : Nat) (s : SectionS) :
    List (Duck Prelim) :=
  match cp i (sectionText s) with
  | .obj p =>
    match p.prelims with
    | some (.obj l) => l.map (tagPrelim i (sectionTitleOf i s))
    | _ => []
  | .raw => []

/-- The mains contributed by section `s` at position `i`. -/
def segMains (cp : Nat → String → Duck PyqR) (i : Nat) (s : SectionS) :
    List (Duck Mains) :=
  match cp i (sectionText s) with
  | .obj p =>
    match p.mains with
    | some (.obj l) => l.map (tagMains i (sectionTitleOf i s))
    | _ => []
  | .raw => []

/-- Index-ordered concatenation of per-section prelim segments. -/
def flatPrelimsFrom (cp : Nat → String → Duck PyqR) :
    Nat → List SectionS → List (Duck Prelim)
  | _, [] => []
  | i, s :: rest => segPrelims cp i s ++ flatPrelimsFrom cp (i + 1) rest

/-- Index-ordered concatenation of per-section mains segments. -/
def flatMainsFrom (cp : Nat → String → Duck PyqR) :
    Nat → List SectionS → List (Duck Mains)
  | _, [] => []
  | i, s :: rest => segMains cp i s ++ flatMainsFrom cp (i + 1) rest

/-- One (tagged-when-dict) mindmap per section, in section order. -/
def mindmapsFrom (cm : Nat → String → Duck MindMap) :
    Nat → List SectionS → List (Duck MindMap)
  | _, [] => []
  | i, s :: rest =>
    tagMindmap i (sectionTitleOf i s) (cm i (sectionText s)) :: mindmapsFrom cm (i + 1) rest

/-- Wrap a total (never-raising) generator oracle for the loop. -/
def okOracle {A : Type} (f : Nat → String → A) :
    Nat → String → Except PyErr A := fun i t => .ok (f i t)

/-- Every `review_notes` object obtained in one `review_all_content` run,
in the order the code collects them: sections, cards, pyq, then one per
mindmap. -/
def allNotes {α β γ δ : Type} (r : AllReviewResults α β γ δ) : List ReviewNotes :=
  [r.sections.review_notes.toReviewNotes, r.cards.review_notes.toReviewNotes,
    r.pyq.review_notes.toReviewNotes] ++ r.mindmaps.map (fun m => m.review_notes.toReviewNotes)

/-- The option keys of a prelim question's `options` object. -/
def prelimOptionKeys (q : Prelim) : List String := q.options.map Prod.fst

/-- The data-model invariant claimed for prelim questions:
`correct_answer` is a key of `options`. -/
def prelimInvariant (q : Prelim) : Prop := q.correct_answer ∈ prelimOptionKeys q

/-! Concrete sample values used by witnesses and counterexamples. -/

/-- A sample extracted section. -/
def secA : SectionS :=
  { title := some ("Alpha"), content := ["p1", "p2"], importance := some ("important") }

/-- A second sample section, with no `"title"` key. -/
def secB : SectionS := { title := none, content := ["q1"], importance := none }

/-- A sample generated card (before tagging). -/
def cardA : Card :=
  { title := ("CardA"), gs := ("GS2"), tags := ["t1", "t2", "t3"], summary := ("S"),
    cta_buttons := ("View Mind Map | View PYQs") }

/-- A sample generated mindmap (before tagging). -/
def mindmapA : MindMap := { title := ("MM"), nodes := [] }

/-- A sample well-formed prelim question (`correct_answer` is a key of
`options`). -/
def prelimA : Prelim :=
  { question := ("Q?"), options := [("a", "A"), ("b", "B"), ("c", "C"), ("d", "D")],
    correct_answer := ("a"), explanation := ("E"), gs_paper := ("GS1"), year := ("2024") }

/-- A prelim question violating the invariant: `correct_answer` `"e"` is
not among the option keys `a`–`d`. -/
def prelimBad : Prelim :=
  { question := ("Q?"), options := [("a", "A"), ("b", "B"), ("c", "C"), ("d", "D")],
    correct_answer := ("e"), explanation := ("E"), gs_paper := ("GS1"), year := ("2024") }

/-- A sample mains question. -/
def mainsA : Mains :=
  { question := ("M?"), type := ("10 marks"), gs_paper := ("GS2"), year := ("2024"),
    key_points := ["k1"] }

/-- A sample generated question set containing `prelimA` and `mainsA`. -/
def pyqRA : PyqR :=
  { prelims := some (Duck.obj [Duck.obj prelimA]), mains := some (Duck.obj [Duck.obj mainsA]) }

/-- A card generator stub: one dict card plus one non-dict list element. -/
def ccW : Nat → String → Duck (List (Duck Card)) := fun _ _ => Duck.obj [Duck.obj cardA, Duck.raw]

/-- A mindmap generator stub returning a non-dict value. -/
def cmW : Nat → String → Duck MindMap := fun _ _ => Duck.raw

/-- A question generator stub returning `pyqRA`. -/
def cpW : Nat → String → Duck PyqR := fun _ _ => Duck.obj pyqRA

/-- A question generator stub whose prelim violates the invariant. -/
def cpBad : Nat → String → Duck PyqR :=
  fun _ _ => Duck.obj { prelims := some (Duck.obj [Duck.obj prelimBad]), mains := some (Duck.obj []) }

/-- Wrap a JSON payload in the model's fenced-code-block convention. -/
def respOf (p : String) : String := ("```json\n") ++ p ++ ("\n```")

/-- JSON text for a one-element section array (what the extraction model
would answer). -/
def secListPayload : String :=
  ("[\x7b\"title\": \"Alpha\", \"content\": [\"p1\", \"p2\"], \"importance\": \"important\"\x7d]")

/-- JSON text for a one-element card array. -/
def cardsPayload : String :=
  ("[\x7b\"title\": \"CardA\", \"gs\": \"GS2\", \"tags\": [\"t1\", \"t2\", \"t3\"], ") ++
  ("\"summary\": \"S\", \"cta_buttons\": \"View Mind Map | View PYQs\"\x7d]")

/-- JSON text for a mindmap object. -/
def mindmapPayload : String := ("\x7b\"title\": \"MM\", \"nodes\": []\x7d")

/-- JSON text for a question-set object. -/
def pyqPayload : String :=
  ("\x7b\"prelims\": [\x7b\"question\": \"Q?\", \"options\": \x7b\"a\": \"A\", \"b\": \"B\", ") ++
  ("\"c\": \"C\", \"d\": \"D\"\x7d, \"correct_answer\": \"a\", \"explanation\": \"E\", ") ++
  ("\"gs_paper\": \"GS1\", \"year\": \"2024\"\x7d], \"mains\": [\x7b\"question\": \"M?\", ") ++
  ("\"type\": \"10 marks\", \"gs_paper\": \"GS2\", \"year\": \"2024\", \"key_points\": [\"k1\"]\x7d]\x7d")

/-- JSON text for a ten-element section array: ten copies of a section
object. -/
def tenSectionsPayload : String :=
  ("[") ++ String.intercalate (", ")
    (List.replicate 10 ("\x7b\"title\": \"Alpha\", \"content\": [\"p1\", \"p2\"], \"importance\": \"important\"\x7d"))
  ++ ("]")

/-- A model response for the extraction call whose fenced block holds ten
section objects. -/
def tenSectionsRaw : String := respOf tenSectionsPayload

/-- `json.loads` behavior on `tenSectionsPayload`: ten section dicts. -/
def parseTenSections : String → Option (List SectionS) :=
  fun s => if s = tenSectionsPayload then some (List.replicate 10 secA) else none

/-- An empty store. -/
def emptyStore : PipelineStore := fun _ => none

/-- The date key used by the orchestrator witness. -/
def dateW : String := ("07-10-2025")

/-- A collaborator environment in which the scrape fails on attempts 0 and
1 and everything succeeds on attempt 2; the review responses carry no
fenced JSON block, so every review falls back to the original content. -/
def envW : Env :=
  { scrape := fun k =>
      if k < 2 then Except.error (PyErr.exception ("scrape failed")) else Except.ok ("article text"),
    extractResp := fun _ => respOf secListPayload,
    parseSections := fun s => if s = secListPayload then some [secA] else none,
    cardsResp := fun _ _ => respOf cardsPayload,
    parseCards := fun s => if s = cardsPayload then some (Duck.obj [Duck.obj cardA]) else none,
    mindmapResp := fun _ _ => respOf mindmapPayload,
    parseMindmap := fun s => if s = mindmapPayload then some (Duck.obj mindmapA) else none,
    pyqResp := fun _ _ => respOf pyqPayload,
    parsePyq := fun s => if s = pyqPayload then some (Duck.obj pyqRA) else none,
    reviewSecResp := fun _ => ("The sections look fine."),
    parseReviewSec := fun _ => none,
    reviewCardsResp := fun _ => ("The cards look fine."),
    parseReviewCards := fun _ => none,
    reviewMmResp := fun _ _ => ("The mindmap looks fine."),
    parseReviewMm := fun _ => none,
    reviewPyqResp := fun _ => ("The questions look fine."),
    parseReviewPyq := fun _ => none,
    writeOk := fun _ => true,
    clock := fun _ => (100, 101) }

/-- The summary the witness run returns. -/
def summaryW : RunSummary :=
  { message := ("Content generated and saved successfully"), date := dateW,
    sections_count := 1, cards_count := 1, mindmaps_count := 1,
    prelims_count := 1, mains_count := 1,
    review_summary := { total_issues := 4, total_corrections := 0, average_accuracy := 0 } }

/-!  Theorems.  Each claim of the specification gets exactly one theorem
(plus a witness or counterexample where required). -/

/-- A merge-upsert whose payload has every field present replaces the whole
document, whatever was stored before. -/
theorem mergeDoc_full {α β γ δ ε : Type} (old : Option (Doc α β γ δ ε))
    (d : String) (se : α) (ca : β) (mm : γ) (pq : δ) (ov : ε) (t1 t2 : Nat) :
    mergeDoc old
      { date := some d, sections := some se, cards := some ca, mindmap := some mm,
        pyq := some pq, overall_review := some ov,
        created_at := some t1, updated_at := some t2 } =
      { date := some d, sections := some se, cards := some ca, mindmap := some mm,
        pyq := some pq, overall_review := some ov,
        created_at := some t1, updated_at := some t2 } := by
  cases old <;> rfl

/-- C10: a successful `save_daily_content` call always writes `created_at`
and `updated_at` from this run's clock readings and includes every field in
the merge payload, so the stored document for the date key equals exactly
this run's data — in particular a second run overwrites the original
`created_at` even under merge semantics — while documents at other keys
are untouched. -/
theorem C10_save_overwrites_all_fields {α β γ δ ε : Type} (t1 t2 : Nat)
    (date : String) (sections : α) (cards : β) (mindmap : γ) (pyq : δ)
    (overall_review : ε) (db : Store α β γ δ ε) :
    (save_daily_content true t1 t2 date sections cards mindmap pyq overall_review db).2 = true ∧
    (save_daily_content true t1 t2 date sections cards mindmap pyq overall_review db).1 date =
      some { date := some date, sections := some sections, cards := some cards,
             mindmap := some mindmap, pyq := some pyq, overall_review := some overall_review,
             created_at := some t1, updated_at := some t2 } ∧
    (∀ k, k ≠ date →
      (save_daily_content true t1 t2 date sections cards mindmap pyq overall_review db).1 k = db k) := by
  refine ⟨rfl, ?_, ?_⟩
  · show (if date = date then _ else _) = _
    rw [if_pos rfl, mergeDoc_full]
  · intro k hk
    show (if k = date then _ else _) = _
    rw [if_neg hk]

/-- Witness for C10: a store whose document for the key has
`created_at = 99` ends up with `created_at = 10` after the save; the
document at a different key is untouched. -/
theorem C10_save_overwrites_all_fields_witness :
    ((save_daily_content true 10 11 ("05-10-2025") (0 : Nat) (1 : Nat) (2 : Nat) (3 : Nat) (4 : Nat)
        (fun _ => some { created_at := some 99 })).1 ("05-10-2025") =
      some { date := some ("05-10-2025"), sections := some 0, cards := some 1, mindmap := some 2,
             pyq := some 3, overall_review := some 4, created_at := some 10, updated_at := some 11 }) ∧
    ((save_daily_content true 10 11 ("05-10-2025") (0 : Nat) (1 : Nat) (2 : Nat) (3 : Nat) (4 : Nat)
        (fun _ => some { created_at := some 99 })).1 ("06-10-2025") = some { created_at := some 99 }) :=
  ⟨(C10_save_overwrites_all_fields 10 11 ("05-10-2025") 0 1 2 3 4
      (fun _ => some { created_at := some 99 })).2.1,
   by
    have h := (C10_save_overwrites_all_fields 10 11 ("05-10-2025") 0 1 2 3 4
      (fun _ => some { created_at := some 99 })).2.2 ("06-10-2025") (by decide)
    rw [h]⟩

/-- C2: whenever the review response has no extractable fenced JSON block,
or the extracted payload does not parse as JSON, `review_sections` does not
raise: it returns the input sections unchanged, a synthetic note naming the
failure mode, no corrections, and both scores `0`. -/
theorem C2_review_sections_fallback {α : Type}
    (parse : String → Option (SectionsReview α)) (raw : String)
    (sections : List α) (original_text : String)
    (h : extract_json_block raw = none ∨
         ∃ p, extract_json_block raw = some p ∧ parse p = none) :
    (review_sections parse raw sections original_text).corrected_sections = sections ∧
    ((review_sections parse raw sections original_text).review_notes.issues_found =
        ["Failed to parse review response"] ∨
     (review_sections parse raw sections original_text).review_notes.issues_found =
        ["Invalid JSON in review response"]) ∧
    (review_sections parse raw sections original_text).review_notes.corrections_made = [] ∧
    (review_sections parse raw sections original_text).review_notes.accuracy_score = 0 ∧
    (review_sections parse raw sections original_text).review_notes.completeness_score = 0 := by
  unfold review_sections
  rcases h with h | ⟨p, hp, hparse⟩
  · rw [h]
    exact ⟨rfl, Or.inl rfl, rfl, rfl, rfl⟩
  · rw [hp]
    by_cases he : p.isEmpty
    · rw [if_pos (show pyFalsy (some p) = true from he)]
      exact ⟨rfl, Or.inl rfl, rfl, rfl, rfl⟩
    · rw [if_neg (show ¬ pyFalsy (some p) = true from he)]
      rw [show Option.getD (some p) ("") = p from rfl, hparse]
      exact ⟨rfl, Or.inr rfl, rfl, rfl, rfl⟩

/-- Witness for C2: a response with no fenced block, with a parse that
always fails (`json.loads` raising on anything). -/
theorem C2_review_sections_fallback_witness :
    (review_sections (fun _ => none) ("no fenced block here") ([0] : List Nat)
        ("orig")).corrected_sections = [0] ∧
    (review_sections (fun _ => none) ("no fenced block here") ([0] : List Nat)
        ("orig")).review_notes.accuracy_score = 0 ∧
    (review_sections (fun _ => none) ("no fenced block here") ([0] : List Nat)
        ("orig")).review_notes.completeness_score = 0 :=
  ⟨(C2_review_sections_fallback (fun _ => none) ("no fenced block here") [0] ("orig")
      (Or.inl (by decide))).1,
   (C2_review_sections_fallback (fun _ => none) ("no fenced block here") [0] ("orig")
      (Or.inl (by decide))).2.2.2.1,
   (C2_review_sections_fallback (fun _ => none) ("no fenced block here") [0] ("orig")
      (Or.inl (by decide))).2.2.2.2⟩

/-- C9 counterexample: the claim says the Reviewer handles an absent
extraction result differently from a present-but-empty one; in the code
the falsy check `if not json_payload:` conflates them, so a response with
no fenced block and a response whose fenced block is empty produce exactly
the same review result. -/
theorem C9_counterexample :
    extract_json_block ("response without any fence") = none ∧
    extract_json_block ("```json```") = some ("") ∧
    review_sections (fun _ => none) ("response without any fence") ([0] : List Nat) ("t") =
      review_sections (fun _ => none) ("```json```") ([0] : List Nat) ("t") := by
  refine ⟨by decide, by decide, ?_⟩
  rfl

/-- C9 amended: `extract_json_block` itself does distinguish the two cases
(`none` versus `some ""`), but `review_sections` treats any response whose
extracted payload is absent *or* empty identically: both take the same
`"Failed to parse review response"` fallback, because the guard
`if not json_payload:` is a Python falsy check. -/
theorem C9_amended_conflation {α : Type}
    (parse : String → Option (SectionsReview α)) (raw1 raw2 : String)
    (sections : List α) (original_text : String)
    (h1 : extract_json_block raw1 = none)
    (h2 : extract_json_block raw2 = some ("")) :
    review_sections parse raw1 sections original_text =
      review_sections parse raw2 sections original_text := by
  unfold review_sections
  rw [h1, h2]
  rfl

/-- Witness for the amended C9. -/
theorem C9_amended_conflation_witness :
    review_sections (fun _ => none) ("plain prose answer") ([0] : List Nat) ("t") =
      review_sections (fun _ => none) ("```json```") ([0] : List Nat) ("t") :=
  C9_amended_conflation (fun _ => none) ("plain prose answer") ("```json```") [0] ("t")
    (by decide) (by decide)

/-- C3: for every run of `review_all_content` over N mindmaps, the
aggregate report counts `3 + N` review-notes samples (one each for the
sections, cards and pyq reviews and one per mindmap review, with no
weighting by artifact count); `total_issues` and `total_corrections` are
the sums of `issues_found`/`corrections_made` lengths over those samples,
and `average_accuracy` is the arithmetic mean of their accuracy scores. -/
theorem C3_overall_review_aggregate {α β γ δ : Type}
    (parseSec : String → Option (SectionsReview α))
    (parseCards : String → Option (CardsReview β))
    (parseMm : String → Option (MindmapReview γ))
    (parsePyq : String → Option (PyqReview δ))
    (rawSec rawCards rawPyq : String) (rawMm : Nat → String)
    (sections : List α) (cards : List β) (mindmaps : List γ) (pyq : δ)
    (original_text : String) :
    let r := review_all_content parseSec parseCards parseMm parsePyq
      rawSec rawCards rawPyq rawMm sections cards mindmaps pyq original_text
    (allNotes r).length = 3 + mindmaps.length ∧
    r.mindmaps.length = mindmaps.length ∧
    r.overall_review.total_issues =
      ((allNotes r).map (fun n => n.issues_found.length)).sum ∧
    r.overall_review.total_corrections =
      ((allNotes r).map (fun n => n.corrections_made.length)).sum ∧
    r.overall_review.average_accuracy =
      ((allNotes r).map (fun n => n.accuracy_score)).sum / ((3 + mindmaps.length : ℚ)) := by
  intro r
  have hlen : (allNotes r).length = 3 + mindmaps.length := by
    unfold allNotes r review_all_content
    dsimp only
    simp only [List.length_append, List.length_cons, List.length_map, List.enum_length,
      List.length_nil]
  refine ⟨hlen, ?_, ?_, ?_, ?_⟩
  · show (review_all_content parseSec parseCards parseMm parsePyq
      rawSec rawCards rawPyq rawMm sections cards mindmaps pyq
      original_text).mindmaps.length = mindmaps.length
    unfold review_all_content
    dsimp only
    rw [List.length_map, List.enum_length]
  · rfl
  · rfl
  · show (review_all_content parseSec parseCards parseMm parsePyq
      rawSec rawCards rawPyq rawMm sections cards mindmaps pyq
      original_text).overall_review.average_accuracy = _
    unfold review_all_content
    dsimp only
    rw [if_neg (by simp)]
    congr 1
    rw [List.length_map]
    simp only [List.length_append, List.length_cons, List.length_map, List.enum_length,
      List.length_nil]
    push_cast
    ring

/-- One loop iteration with generators that do not raise: the cards,
mindmap and question contributions of section `s` at position `i` are
appended to the aggregates. -/
theorem processSection_ok (cc : Nat → String → Duck (List (Duck Card)))
    (cm : Nat → String → Duck MindMap) (cp : Nat → String → Duck PyqR)
    (i : Nat) (s : SectionS) (agg : Aggregates) :
    processSection (okOracle cc) (okOracle cm) (okOracle cp) i s agg =
      Except.ok
        { all_cards := agg.all_cards ++ segCards cc i s,
          all_mindmaps := agg.all_mindmaps ++
            [tagMindmap i (sectionTitleOf i s) (cm i (sectionText s))],
          all_pyqs :=
            { prelims := agg.all_pyqs.prelims ++ segPrelims cp i s,
              mains := agg.all_pyqs.mains ++ segMains cp i s } } := by
  unfold processSection okOracle segCards segPrelims segMains
  dsimp only
  rcases hc : cc i (sectionText s) with cs | _ <;>
    rcases hp : cp i (sectionText s) with ⟨pre, mai⟩ | _
  · rcases pre with _ | (l | _) <;> rcases mai with _ | (m | _) <;> simp [List.append_nil]
  · simp [List.append_nil]
  · rcases pre with _ | (l | _) <;> rcases mai with _ | (m | _) <;> simp [List.append_nil]
  · simp [List.append_nil]

/-- The whole aggregation loop with generators that do not raise: the
final aggregates are the start aggregates followed by the index-ordered
concatenation of the per-section contributions. -/
theorem contentLoopGo_ok (cc : Nat → String → Duck (List (Duck Card)))
    (cm : Nat → String → Duck MindMap) (cp : Nat → String → Duck PyqR) :
    ∀ (l : List SectionS) (i : Nat) (agg : Aggregates),
    contentLoopGo (okOracle cc) (okOracle cm) (okOracle cp) i l agg =
      Except.ok
        { all_cards := agg.all_cards ++ flatCardsFrom cc i l,
          all_mindmaps := agg.all_mindmaps ++ mindmapsFrom cm i l,
          all_pyqs :=
            { prelims := agg.all_pyqs.prelims ++ flatPrelimsFrom cp i l,
              mains := agg.all_pyqs.mains ++ flatMainsFrom cp i l } } := by
  intro l
  induction l with
  | nil =>
    intro i agg
    obtain ⟨ac, am, pp, pm⟩ := agg
    simp [contentLoopGo, flatCardsFrom, mindmapsFrom, flatPrelimsFrom, flatMainsFrom]
  | cons s rest ih =>
    intro i agg
    simp only [contentLoopGo, processSection_ok, ih, flatCardsFrom, mindmapsFrom,
      flatPrelimsFrom, flatMainsFrom, List.append_assoc, List.cons_append,
      List.singleton_append, List.nil_append]

/-- `mindmapsFrom` yields exactly one entry per section. -/
theorem mindmapsFrom_length (cm : Nat → String → Duck MindMap) :
    ∀ (l : List SectionS) (i : Nat), (mindmapsFrom cm i l).length = l.length := by
  intro l
  induction l with
  | nil => intro i; rfl
  | cons s rest ih => intro i; simp [mindmapsFrom, ih]

/-- The entry of `mindmapsFrom` at position `j` is the (tagged-when-dict)
mindmap generated for the section at position `j`. -/
theorem mindmapsFrom_getElem (cm : Nat → String → Duck MindMap) :
    ∀ (l : List SectionS) (i j : Nat) (s : SectionS), l[j]? = some s →
      (mindmapsFrom cm i l)[j]? =
        some (tagMindmap (i + j) (sectionTitleOf (i + j) s) (cm (i + j) (sectionText s))) := by
  intro l
  induction l with
  | nil => intro i j s h; simp at h
  | cons a rest ih =>
    intro i j s h
    cases j with
    | zero =>
      simp only [List.getElem?_cons_zero, Option.some.injEq] at h
      subst h
      simp [mindmapsFrom]
    | succ j2 =>
      simp only [List.getElem?_cons_succ] at h
      have h2 := ih (i + 1) j2 s h
      show (mindmapsFrom cm i (a :: rest))[j2 + 1]? = _
      rw [mindmapsFrom]
      rw [List.getElem?_cons_succ, h2]
      have harith : i + 1 + j2 = i + (j2 + 1) := by omega
      rw [harith]

/-- C4: with at least two extracted sections and any generator outputs,
the loop's flattened `all_cards` is the concatenation of the per-section
card segments in strict section-index order (`flatCardsFrom`, whose
equation on `s :: rest` puts every card of section `i` strictly before
every card of later sections, preserving generator order inside each
segment via `List.map`); the same holds for the global `prelims` and
`mains` lists; and every card dict in a segment carries
`section_index = i` and the title of its originating section. -/
theorem C4_aggregation_order (cc : Nat → String → Duck (List (Duck Card)))
    (cm : Nat → String → Duck MindMap) (cp : Nat → String → Duck PyqR)
    (sections : List SectionS) (h2 : 2 ≤ sections.length) :
    ∃ A, contentLoopGo (okOracle cc) (okOracle cm) (okOracle cp) 0 sections
        emptyAggregates = Except.ok A ∧
      A.all_cards = flatCardsFrom cc 0 sections ∧
      A.all_pyqs.prelims = flatPrelimsFrom cp 0 sections ∧
      A.all_pyqs.mains = flatMainsFrom cp 0 sections ∧
      (∀ i s rest, flatCardsFrom cc i (s :: rest) =
        segCards cc i s ++ flatCardsFrom cc (i + 1) rest) ∧
      (∀ i s rest, flatPrelimsFrom cp i (s :: rest) =
        segPrelims cp i s ++ flatPrelimsFrom cp (i + 1) rest) ∧
      (∀ i s rest, flatMainsFrom cp i (s :: rest) =
        segMains cp i s ++ flatMainsFrom cp (i + 1) rest) ∧
      (∀ i s c, Duck.obj c ∈ segCards cc i s →
        c.section_index = some i ∧ c.section_title = some (sectionTitleOf i s)) := by
  refine ⟨_, contentLoopGo_ok cc cm cp sections 0 emptyAggregates,
    by simp [emptyAggregates], by simp [emptyAggregates], by simp [emptyAggregates],
    fun i s rest => rfl, fun i s rest => rfl, fun i s rest => rfl, ?_⟩
  intro i s c hmem
  unfold segCards at hmem
  rcases hcc : cc i (sectionText s) with cs | _
  · rw [hcc] at hmem
    obtain ⟨d, hd, htag⟩ := List.mem_map.mp hmem
    rcases d with d0 | _
    · unfold tagCard at htag
      injection htag with h
      subst h
      exact ⟨rfl, rfl⟩
    · exact absurd htag (by simp [tagCard])
  · rw [hcc] at hmem
    exact absurd hmem (by simp)

/-- Witness for C4: two sections, a generator returning one dict card and
one non-dict element. -/
theorem C4_aggregation_order_witness :
    2 ≤ ([secA, secB] : List SectionS).length ∧
    ∃ A, contentLoopGo (okOracle ccW) (okOracle cmW) (okOracle cpW) 0 [secA, secB]
        emptyAggregates = Except.ok A ∧
      A.all_cards = flatCardsFrom ccW 0 [secA, secB] ∧
      A.all_pyqs.prelims = flatPrelimsFrom cpW 0 [secA, secB] ∧
      A.all_pyqs.mains = flatMainsFrom cpW 0 [secA, secB] ∧
      (∀ i s rest, flatCardsFrom ccW i (s :: rest) =
        segCards ccW i s ++ flatCardsFrom ccW (i + 1) rest) ∧
      (∀ i s rest, flatPrelimsFrom cpW i (s :: rest) =
        segPrelims cpW i s ++ flatPrelimsFrom cpW (i + 1) rest) ∧
      (∀ i s rest, flatMainsFrom cpW i (s :: rest) =
        segMains cpW i s ++ flatMainsFrom cpW (i + 1) rest) ∧
      (∀ i s c, Duck.obj c ∈ segCards ccW i s →
        c.section_index = some i ∧ c.section_title = some (sectionTitleOf i s)) :=
  ⟨by decide, C4_aggregation_order ccW cmW cpW [secA, secB] (by decide)⟩

/-- C5: for every section list of length n and any generator outputs, the
loop's `all_mindmaps` has exactly one entry per section (length n), in
section order with no filtering, and the entry at position j is the
mindmap generated for section j, tagged with `section_index`/`section_title`
when the generator returned a dict. -/
theorem C5_mindmaps_one_per_section (cc : Nat → String → Duck (List (Duck Card)))
    (cm : Nat → String → Duck MindMap) (cp : Nat → String → Duck PyqR)
    (sections : List SectionS) :
    ∃ A, contentLoopGo (okOracle cc) (okOracle cm) (okOracle cp) 0 sections
        emptyAggregates = Except.ok A ∧
      A.all_mindmaps = mindmapsFrom cm 0 sections ∧
      A.all_mindmaps.length = sections.length ∧
      (∀ j s, sections[j]? = some s →
        A.all_mindmaps[j]? =
          some (tagMindmap j (sectionTitleOf j s) (cm j (sectionText s)))) := by
  refine ⟨_, contentLoopGo_ok cc cm cp sections 0 emptyAggregates,
    by simp [emptyAggregates], ?_, ?_⟩
  · simp [emptyAggregates, mindmapsFrom_length]
  · intro j s h
    have h2 := mindmapsFrom_getElem cm sections 0 j s h
    simpa [emptyAggregates] using h2

/-- Witness for C5. -/
theorem C5_mindmaps_one_per_section_witness :
    ∃ A, contentLoopGo (okOracle ccW) (okOracle cmW) (okOracle cpW) 0 [secA, secB]
        emptyAggregates = Except.ok A ∧
      A.all_mindmaps = mindmapsFrom cmW 0 [secA, secB] ∧
      A.all_mindmaps.length = ([secA, secB] : List SectionS).length ∧
      (∀ j s, ([secA, secB] : List SectionS)[j]? = some s →
        A.all_mindmaps[j]? =
          some (tagMindmap j (sectionTitleOf j s) (cmW j (sectionText s)))) :=
  C5_mindmaps_one_per_section ccW cmW cpW [secA, secB]

/-- C7 counterexample: nothing in the pipeline checks the
`correct_answer ∈ options` invariant.  With a question-generator output
whose `correct_answer` is `"e"` while the options are keyed `a`–`d`
(possible since `create_pyq` returns whatever JSON the model produced),
the violating question flows unchanged into the flattened global prelims
list. -/
theorem C7_counterexample :
    ∃ A, contentLoopGo (okOracle ccW) (okOracle cmW) (okOracle cpBad) 0 [secA]
        emptyAggregates = Except.ok A ∧
      ∃ q, Duck.obj q ∈ A.all_pyqs.prelims ∧ ¬ prelimInvariant q := by
  refine ⟨_, contentLoopGo_ok ccW cmW cpBad [secA] 0 emptyAggregates, ?_⟩
  refine ⟨{ prelimBad with section_index := some 0, section_title := some ("Alpha") }, ?_, ?_⟩
  · decide
  · unfold prelimInvariant prelimOptionKeys
    decide

/-- Helper for the amended C7: every prelim in the index-ordered flattening
is a tagged copy of some generator-returned prelim, and tagging does not
touch `options` or `correct_answer`, so generator-level validity is
preserved. -/
theorem flatPrelimsFrom_invariant (cp : Nat → String → Duck PyqR)
    (hgen : ∀ i t p l q, cp i t = Duck.obj p → p.prelims = some (Duck.obj l) →
      Duck.obj q ∈ l → prelimInvariant q) :
    ∀ (l : List SectionS) (i : Nat) (q : Prelim),
      Duck.obj q ∈ flatPrelimsFrom cp i l → prelimInvariant q := by
  intro l
  induction l with
  | nil => intro i q h; exact absurd h (by simp [flatPrelimsFrom])
  | cons s rest ih =>
    intro i q h
    rw [flatPrelimsFrom] at h
    rcases List.mem_append.mp h with h | h
    · unfold segPrelims at h
      rcases hcp : cp i (sectionText s) with p | _
      · rw [hcp] at h
        dsimp only at h
        rcases hpre : p.prelims with _ | pd
        · rw [hpre] at h
          exact absurd h (by simp)
        · rcases pd with l0 | _
          · rw [hpre] at h
            dsimp only at h
            obtain ⟨d, hd, htag⟩ := List.mem_map.mp h
            rcases d with q0 | _
            · unfold tagPrelim at htag
              injection htag with heq
              have hq0 := hgen i (sectionText s) p l0 q0 hcp hpre hd
              rw [← heq]
              exact hq0
            · exact absurd htag (by simp [tagPrelim])
          · rw [hpre] at h
            exact absurd h (by simp)
      · rw [hcp] at h
        exact absurd h (by simp)
    · exact ih (i + 1) q h

/-- C7 amended: if every prelim question the Question Generator returns
satisfies `correct_answer ∈ options.keys()`, then every prelim in the
flattened global prelims list satisfies it — aggregation and tagging
preserve the invariant — but the pipeline itself never establishes or
checks it. -/
theorem C7_amended_invariant_preserved
    (cc : Nat → String → Duck (List (Duck Card)))
    (cm : Nat → String → Duck MindMap) (cp : Nat → String → Duck PyqR)
    (sections : List SectionS)
    (hgen : ∀ i t p l q, cp i t = Duck.obj p → p.prelims = some (Duck.obj l) →
      Duck.obj q ∈ l → prelimInvariant q) :
    ∀ A, contentLoopGo (okOracle cc) (okOracle cm) (okOracle cp) 0 sections
        emptyAggregates = Except.ok A →
      ∀ q, Duck.obj q ∈ A.all_pyqs.prelims → prelimInvariant q := by
  intro A hA q hq
  rw [contentLoopGo_ok] at hA
  injection hA with hA
  rw [← hA] at hq
  simp only [emptyAggregates, List.nil_append] at hq
  exact flatPrelimsFrom_invariant cp hgen sections 0 q hq

/-- Witness for the amended C7, with the well-formed generator stub: the
tagged copy of `prelimA` sitting in the flattened list satisfies the
invariant. -/
theorem C7_amended_invariant_preserved_witness :
    prelimInvariant { prelimA with section_index := some 0, section_title := some ("Alpha") } := by
  have hgen : ∀ i t p l q, cpW i t = Duck.obj p → p.prelims = some (Duck.obj l) →
      Duck.obj q ∈ l → prelimInvariant q := by
    intro i t p l q hcp hpre hq
    have hp : p = pyqRA := by
      have h0 : Duck.obj pyqRA = Duck.obj p := hcp
      injection h0 with h
      exact h.symm
    subst hp
    have hl : l = [Duck.obj prelimA] := by
      have : some (Duck.obj [Duck.obj prelimA]) = some (Duck.obj l) := by
        rw [← hpre]; rfl
      injection this with h
      injection h with h2
      exact h2.symm
    subst hl
    have : q = prelimA := by
      rcases List.mem_singleton.mp hq with h
      injection h.symm with h2
      exact h2.symm
    subst this
    unfold prelimInvariant prelimOptionKeys
    decide
  have hA := contentLoopGo_ok ccW cmW cpW [secA] 0 emptyAggregates
  exact C7_amended_invariant_preserved ccW cmW cpW [secA] hgen _ hA
    { prelimA with section_index := some 0, section_title := some ("Alpha") } (by decide)

set_option maxRecDepth 40000

/-- C6: the claim (and the extractor's own docstring) promise an output
length in [4, 8] (or fewer when fewer relevant sections exist), but
`extract_sections` returns the parsed model output verbatim with no count
filtering or capping: a response whose fenced block holds ten section
objects yields ten sections. -/
theorem C6_extractor_count_not_enforced :
    extract_sections parseTenSections ("daily article") tenSectionsRaw =
      Except.ok (List.replicate 10 secA) ∧
    (List.replicate 10 secA).length = 10 ∧
    ¬ (List.replicate 10 secA).length ≤ 8 := by
  refine ⟨?_, by decide, by decide⟩
  unfold extract_sections
  have h : extract_json_block tenSectionsRaw = some tenSectionsPayload := by decide
  rw [h]
  unfold parseTenSections
  dsimp only
  rw [if_pos rfl]

/-- Unfolding the retry loop at a successful attempt: return the summary
immediately, no extra delay. -/
theorem retryLoop_ok_step (E : Env) (date : String) (f a d : Nat)
    (db : PipelineStore) (s : RunSummary)
    (h : (runAttempt E date a db).1 = AttemptOutcome.ok s) :
    retryLoop E date (f + 1) a d db =
      { result := some s, attempts := a + 1, total_delay := d,
        store := (runAttempt E date a db).2 } := by
  conv_lhs => rw [retryLoop]
  rw [h]

/-- Unfolding the retry loop at a failed attempt with iterations left:
sleep `RETRY_DELAY` and continue from the next attempt. -/
theorem retryLoop_fail_step (E : Env) (date : String) (f a d : Nat)
    (db : PipelineStore)
    (h : attemptFailed (runAttempt E date a db).1) (hf : f ≠ 0) :
    retryLoop E date (f + 1) a d db =
      retryLoop E date f (a + 1) (d + RETRY_DELAY) (runAttempt E date a db).2 := by
  conv_lhs => rw [retryLoop]
  rcases ho : (runAttempt E date a db).1 with s | _ | _ | e
  · exact absurd ho (h s)
  all_goals
    dsimp only
    rw [if_neg (by simpa using hf)]

/-- Unfolding the retry loop at a failed last attempt: return `None`
without sleeping again. -/
theorem retryLoop_fail_last (E : Env) (date : String) (a d : Nat)
    (db : PipelineStore)
    (h : attemptFailed (runAttempt E date a db).1) :
    retryLoop E date 1 a d db =
      { result := none, attempts := a + 1, total_delay := d,
        store := (runAttempt E date a db).2 } := by
  show retryLoop E date (0 + 1) a d db = _
  conv_lhs => rw [retryLoop]
  rcases ho : (runAttempt E date a db).1 with s | _ | _ | e
  · exact absurd ho (h s)
  all_goals rfl

/-- Attempt-count and sleep-time bookkeeping of the retry loop: starting
at iteration `a` with `fuel` iterations left, at most `fuel` further
attempts are made (at least one when `fuel ≥ 1`), and the total sleep time
is `RETRY_DELAY` for every attempt after the first. -/
theorem retryLoop_bounds (E : Env) (date : String) :
    ∀ (fuel a d : Nat) (db : PipelineStore),
      a ≤ (retryLoop E date fuel a d db).attempts ∧
      (retryLoop E date fuel a d db).attempts ≤ a + fuel ∧
      (1 ≤ fuel → a + 1 ≤ (retryLoop E date fuel a d db).attempts) ∧
      (retryLoop E date fuel a d db).total_delay =
        d + RETRY_DELAY * ((retryLoop E date fuel a d db).attempts - a - 1) := by
  intro fuel
  induction fuel with
  | zero =>
    intro a d db
    refine ⟨Nat.le_refl a, by simp [retryLoop], by omega, ?_⟩
    show d = d + RETRY_DELAY * (a - a - 1)
    have h0 : a - a - 1 = 0 := by omega
    rw [h0, Nat.mul_zero, Nat.add_zero]
  | succ f ih =>
    intro a d db
    rcases ho : (runAttempt E date a db).1 with s | _ | _ | e
    · rw [retryLoop_ok_step E date f a d db s ho]
      dsimp only
      refine ⟨by omega, by omega, by omega, ?_⟩
      have h0 : a + 1 - a - 1 = 0 := by omega
      rw [h0, Nat.mul_zero, Nat.add_zero]
    all_goals {
      first
      | have hfail : attemptFailed (runAttempt E date a db).1 := by
          rw [ho]; exact fun s2 h2 => AttemptOutcome.noConfusion h2
      rcases Nat.eq_zero_or_pos f with hf0 | hfpos
      · subst hf0
        rw [show (0 : Nat) + 1 = 1 from rfl, retryLoop_fail_last E date a d db hfail]
        dsimp only
        refine ⟨by omega, by omega, by omega, ?_⟩
        have h0 : a + 1 - a - 1 = 0 := by omega
        rw [h0, Nat.mul_zero, Nat.add_zero]
      · have hf : f ≠ 0 := by omega
        rw [retryLoop_fail_step E date f a d db hfail hf]
        obtain ⟨ih1, ih2, ih3, ih4⟩ := ih (a + 1) (d + RETRY_DELAY) ((runAttempt E date a db).2)
        have ih3p := ih3 (by omega)
        refine ⟨by omega, by omega, by omega, ?_⟩
        rw [ih4]
        have hatt : (retryLoop E date f (a + 1) (d + RETRY_DELAY)
              ((runAttempt E date a db).2)).attempts - a - 1 =
            ((retryLoop E date f (a + 1) (d + RETRY_DELAY)
              ((runAttempt E date a db).2)).attempts - (a + 1) - 1) + 1 := by
          omega
        rw [hatt, Nat.mul_add, Nat.mul_one]
        ring }

/-- A failed attempt leaves the store untouched, or the attempt succeeded:
every failure path of the attempt body either never reaches the Firestore
write or hits a write that returned `False` without changing the store. -/
theorem runAttempt_store_or_ok (E : Env) (date : String) (k : Nat)
    (db : PipelineStore) :
    (runAttempt E date k db).2 = db ∨
      ∃ s, (runAttempt E date k db).1 = AttemptOutcome.ok s := by
  unfold runAttempt
  rcases hs : E.scrape k with e | article
  · left; rfl
  · dsimp only
    rcases hx : extract_sections E.parseSections article (E.extractResp k) with e | sections
    · left; rfl
    · dsimp only
      by_cases hemp : sections.isEmpty = true
      · rw [if_pos hemp]
        left; rfl
      · rw [if_neg hemp]
        rcases hl : contentLoopGo
            (fun i t => create_cards E.parseCards t (E.cardsResp k i))
            (fun i t => create_mindmap E.parseMindmap t (E.mindmapResp k i))
            (fun i t => create_pyq E.parsePyq t (E.pyqResp k i))
            0 sections emptyAggregates with e | agg
        · left; rfl
        · dsimp only
          rcases hw : E.writeOk k
          · left
            rfl
          · right
            exact ⟨_, rfl⟩

/-- A failed attempt leaves the store untouched. -/
theorem runAttempt_fail_store (E : Env) (date : String) (k : Nat)
    (db : PipelineStore)
    (h : attemptFailed (runAttempt E date k db).1) :
    (runAttempt E date k db).2 = db := by
  rcases runAttempt_store_or_ok E date k db with h2 | ⟨s, hs⟩
  · exact h2
  · exact absurd hs (h s)

/-- An attempt whose scrape raises is a `raised` outcome with the store
untouched (the run restarts from fetch on the next attempt). -/
theorem runAttempt_scrape_error (E : Env) (date : String) (k : Nat)
    (db : PipelineStore) (e : PyErr) (h : E.scrape k = Except.error e) :
    runAttempt E date k db = (AttemptOutcome.raised e, db) := by
  unfold runAttempt
  rw [h]

/-- C1: for every behavior of the fetch, extraction, generation, review
and persistence collaborators, `generate_and_save_content` makes between 1
and `MAX_RETRIES = 3` attempts, each restarting from fetch, sleeping
`RETRY_DELAY = 5` between consecutive attempts (total sleep
`RETRY_DELAY * (attempts - 1)`); if the fetch raises on attempts 0 and 1
and attempt 2 succeeds, the run returns that attempt's summary with the
fetch invoked exactly 3 times (one per attempt); and if every attempt
fails — by exception, empty extraction, or persistence failure — the run
returns `None` after exactly 3 attempts with the configured delay between
each, rather than raising. -/
theorem C1_orchestrator_retry (E : Env) (date : String) (db : PipelineStore) :
    (1 ≤ (generate_and_save_content E date db).attempts ∧
      (generate_and_save_content E date db).attempts ≤ MAX_RETRIES) ∧
    (generate_and_save_content E date db).total_delay =
      RETRY_DELAY * ((generate_and_save_content E date db).attempts - 1) ∧
    (∀ e0 e1 s, E.scrape 0 = Except.error e0 → E.scrape 1 = Except.error e1 →
      (runAttempt E date 2 db).1 = AttemptOutcome.ok s →
      (generate_and_save_content E date db).result = some s ∧
      (generate_and_save_content E date db).attempts = 3) ∧
    ((∀ k, k < MAX_RETRIES → attemptFailed (runAttempt E date k db).1) →
      (generate_and_save_content E date db).result = none ∧
      (generate_and_save_content E date db).attempts = 3 ∧
      (generate_and_save_content E date db).total_delay = 2 * RETRY_DELAY) := by
  have hgen : generate_and_save_content E date db = retryLoop E date 3 0 0 db := rfl
  obtain ⟨b1, b2, b3, b4⟩ := retryLoop_bounds E date 3 0 0 db
  refine ⟨⟨?_, ?_⟩, ?_, ?_, ?_⟩
  · rw [hgen]
    exact b3 (by omega)
  · rw [hgen]
    show (retryLoop E date 3 0 0 db).attempts ≤ 3
    omega
  · rw [hgen]
    rw [b4]
    have h00 : (retryLoop E date 3 0 0 db).attempts - 0 - 1 =
        (retryLoop E date 3 0 0 db).attempts - 1 := by omega
    rw [h00, Nat.zero_add]
  · intro e0 e1 s h0 h1 h2
    have r0 := runAttempt_scrape_error E date 0 db e0 h0
    have r1 := runAttempt_scrape_error E date 1 db e1 h1
    have hfail0 : attemptFailed (runAttempt E date 0 db).1 := by
      rw [r0]; exact fun s2 hx => AttemptOutcome.noConfusion hx
    have hfail1 : attemptFailed (runAttempt E date 1 db).1 := by
      rw [r1]; exact fun s2 hx => AttemptOutcome.noConfusion hx
    have t1 : retryLoop E date 3 0 0 db =
        retryLoop E date 2 1 (0 + RETRY_DELAY) db := by
      have h' := retryLoop_fail_step E date 2 0 0 db hfail0 (by omega)
      rw [r0] at h'
      exact h'
    have t2 : retryLoop E date 2 1 (0 + RETRY_DELAY) db =
        retryLoop E date 1 2 (0 + RETRY_DELAY + RETRY_DELAY) db := by
      have h' := retryLoop_fail_step E date 1 1 (0 + RETRY_DELAY) db hfail1 (by omega)
      rw [r1] at h'
      exact h'
    have t3 : retryLoop E date 1 2 (0 + RETRY_DELAY + RETRY_DELAY) db =
        { result := some s, attempts := 3, total_delay := 0 + RETRY_DELAY + RETRY_DELAY,
          store := (runAttempt E date 2 db).2 } := by
      have h' := retryLoop_ok_step E date 0 2 (0 + RETRY_DELAY + RETRY_DELAY) db s h2
      exact h'
    rw [hgen, t1, t2, t3]
    exact ⟨rfl, rfl⟩
  · intro hall
    have hf0 := hall 0 (by decide)
    have hf1 := hall 1 (by decide)
    have hf2 := hall 2 (by decide)
    have st0 := runAttempt_fail_store E date 0 db hf0
    have st1 := runAttempt_fail_store E date 1 db hf1
    have t1 : retryLoop E date 3 0 0 db =
        retryLoop E date 2 1 (0 + RETRY_DELAY) db := by
      have h' := retryLoop_fail_step E date 2 0 0 db hf0 (by omega)
      rw [st0] at h'
      exact h'
    have t2 : retryLoop E date 2 1 (0 + RETRY_DELAY) db =
        retryLoop E date 1 2 (0 + RETRY_DELAY + RETRY_DELAY) db := by
      have h' := retryLoop_fail_step E date 1 1 (0 + RETRY_DELAY) db hf1 (by omega)
      rw [st1] at h'
      exact h'
    have t3 : retryLoop E date 1 2 (0 + RETRY_DELAY + RETRY_DELAY) db =
        { result := none, attempts := 3, total_delay := 0 + RETRY_DELAY + RETRY_DELAY,
          store := (runAttempt E date 2 db).2 } :=
      retryLoop_fail_last E date 2 (0 + RETRY_DELAY + RETRY_DELAY) db hf2
    rw [hgen, t1, t2, t3]
    exact ⟨rfl, rfl, rfl⟩

/-- Witness for C1: an environment whose scrape raises on attempts 0 and 1
while attempt 2 runs through generation, review and persistence
successfully; the run returns that attempt's summary after exactly 3
attempts. -/
theorem C1_orchestrator_retry_witness :
    envW.scrape 0 = Except.error (PyErr.exception ("scrape failed")) ∧
    envW.scrape 1 = Except.error (PyErr.exception ("scrape failed")) ∧
    ∃ s, (runAttempt envW dateW 2 emptyStore).1 = AttemptOutcome.ok s ∧
      (generate_and_save_content envW dateW emptyStore).result = some s ∧
      (generate_and_save_content envW dateW emptyStore).attempts = 3 := by
  refine ⟨rfl, rfl, ?_⟩
  refine ⟨_, rfl, ?_, ?_⟩
  · exact ((C1_orchestrator_retry envW dateW emptyStore).2.2.1 _ _ _ rfl rfl rfl).1
  · exact ((C1_orchestrator_retry envW dateW emptyStore).2.2.1 _ _ _ rfl rfl rfl).2

/-- `begins p l` decides whether `p` is a prefix of `l`. -/
theorem begins_iff (p : Str) : ∀ l : Str, begins p l = true ↔ ∃ t, l = p ++ t := by
  induction p with
  | nil =>
    intro l
    simp [begins]
  | cons a ps ih =>
    intro l
    cases l with
    | nil =>
      simp [begins]
    | cons c cs =>
      simp only [begins, Bool.and_eq_true, beq_iff_eq]
      constructor
      · rintro ⟨hac, hb⟩
        obtain ⟨t, ht⟩ := (ih cs).mp hb
        exact ⟨t, by rw [hac, ht]; rfl⟩
      · rintro ⟨t, ht⟩
        injection ht with h1 h2
        exact ⟨h1.symm, (ih cs).mpr ⟨t, h2⟩⟩

/-- A pattern occurring in `l` is no longer than `l`. -/
theorem contains_length {p l : Str} (h : ContainsSub p l) : p.length ≤ l.length := by
  obtain ⟨u, v, rfl⟩ := h
  simp
  omega

/-- `splitFirst` fails exactly when the pattern does not occur. -/
theorem splitFirst_none (p : Str) (hp : p ≠ []) :
    ∀ l : Str, splitFirst p l = none ↔ ¬ ContainsSub p l := by
  intro l
  induction l with
  | nil =>
    simp only [splitFirst, true_iff]
    intro h
    have := contains_length h
    simp at this
    exact hp this
  | cons c cs ih =>
    by_cases hb : begins p (c :: cs) = true
    · rw [splitFirst, if_pos hb]
      constructor
      · intro h; exact absurd h (by simp)
      · intro hn
        obtain ⟨t, ht⟩ := (begins_iff p (c :: cs)).mp hb
        exact absurd ⟨[], t, by rw [ht]; rfl⟩ hn
    · rw [splitFirst, if_neg hb]
      rw [Option.map_eq_none']
      rw [ih]
      constructor
      · intro hn hcontra
        obtain ⟨u, v, huv⟩ := hcontra
        cases u with
        | nil =>
          simp only [List.nil_append] at huv
          exact hb ((begins_iff p (c :: cs)).mpr ⟨v, huv⟩)
        | cons c2 u2 =>
          injection huv with h1 h2
          exact hn ⟨u2, v, h2⟩
      · intro hn hcontra
        obtain ⟨u, v, huv⟩ := hcontra
        exact hn ⟨c :: u, v, by rw [huv]; rfl⟩

/-- When `splitFirst` succeeds, it has split at an occurrence of the
pattern, and no occurrence starts strictly earlier (an earlier occurrence
would lie inside `u ++ p.dropLast`). -/
theorem splitFirst_some (p : Str) (hp : p ≠ []) :
    ∀ l u v : Str, splitFirst p l = some (u, v) →
      l = u ++ p ++ v ∧ ¬ ContainsSub p (u ++ p.dropLast) := by
  intro l
  induction l with
  | nil =>
    intro u v h
    exact absurd h (by simp [splitFirst])
  | cons c cs ih =>
    intro u v h
    by_cases hb : begins p (c :: cs) = true
    · rw [splitFirst, if_pos hb] at h
      injection h with h
      obtain ⟨t, ht⟩ := (begins_iff p (c :: cs)).mp hb
      injection h with h1 h2
      subst h1
      have hdrop : List.drop p.length (c :: cs) = t := by
        rw [ht, List.drop_left]
      rw [hdrop] at h2
      subst h2
      refine ⟨by rw [ht]; rfl, ?_⟩
      intro hcs
      have hlen := contains_length hcs
      have hplen : 1 ≤ p.length := by
        cases p with
        | nil => exact absurd rfl hp
        | cons a ps => simp
      rw [List.nil_append, List.length_dropLast] at hlen
      omega
    · rw [splitFirst, if_neg hb] at h
      rw [Option.map_eq_some'] at h
      obtain ⟨⟨u2, v2⟩, hsp, hpair⟩ := h
      injection hpair with h1 h2
      subst h2
      obtain ⟨ihl, ihmin⟩ := ih u2 v2 hsp
      subst h1
      refine ⟨by rw [ihl]; rfl, ?_⟩
      rintro ⟨x, y, hxy⟩
      cases x with
      | nil =>
        simp only [List.nil_append] at hxy
        have hlast := List.dropLast_append_getLast hp
        have hc : c :: cs = p ++ (y ++ [p.getLast hp] ++ v2) := by
          have e1 : c :: cs = (c :: u2) ++ p ++ v2 := by rw [ihl]; rfl
          calc c :: cs = (c :: u2) ++ p ++ v2 := e1
            _ = (c :: u2) ++ (p.dropLast ++ [p.getLast hp]) ++ v2 := by rw [hlast]
            _ = ((c :: u2) ++ p.dropLast) ++ ([p.getLast hp] ++ v2) := by
                simp [List.append_assoc]
            _ = (p ++ y) ++ ([p.getLast hp] ++ v2) := by rw [← hxy]
            _ = p ++ (y ++ [p.getLast hp] ++ v2) := by simp [List.append_assoc]
        exact hb ((begins_iff p (c :: cs)).mpr ⟨y ++ [p.getLast hp] ++ v2, hc⟩)
      | cons c2 x2 =>
        injection hxy with hx1 hx2
        exact ihmin ⟨x2, y, hx2⟩

/-- If the pattern also occurs at position 0 of a string that has an
occurrence after a non-empty prefix `u`, then an occurrence starts
strictly before `u`'s end. -/
theorem head_occurrence_contains (p : Str) (hp : p ≠ []) (u v d : Str) (hu : u ≠ [])
    (heq : p ++ d = u ++ (p ++ v)) : ContainsSub p (u ++ p.dropLast) := by
  have hplen : 1 ≤ p.length := by
    cases p with
    | nil => exact absurd rfl hp
    | cons a ps => simp
  have hulen : 1 ≤ u.length := by
    cases u with
    | nil => exact absurd rfl hu
    | cons a us => simp
  have ht := congrArg (List.take (u.length + p.length - 1)) heq
  rw [List.take_append_eq_append_take, List.take_append_eq_append_take] at ht
  rw [List.take_of_length_le (l := p) (by omega)] at ht
  rw [List.take_of_length_le (l := u) (by omega)] at ht
  have h1 : u.length + p.length - 1 - u.length = p.length - 1 := by omega
  rw [h1] at ht
  rw [List.take_append_eq_append_take] at ht
  have h2 : p.length - 1 - p.length = 0 := by omega
  rw [h2, List.take_zero, List.append_nil] at ht
  rw [← List.dropLast_eq_take] at ht
  exact ⟨[], List.take (u.length + p.length - 1 - p.length) d, by rw [← ht]; rfl⟩

/-- Minimality transfer: a split point with no earlier occurrence starts
no later than any other occurrence, so its prefix `u` is a prefix of any
other occurrence's prefix `a`. -/
theorem firstOcc_prefix (p : Str) (hp : p ≠ []) :
    ∀ (u : Str), ¬ ContainsSub p (u ++ p.dropLast) →
      ∀ a v d : Str, u ++ (p ++ v) = a ++ (p ++ d) → ∃ w, a = u ++ w := by
  intro u
  induction u with
  | nil =>
    intro hmin a v d heq
    exact ⟨a, rfl⟩
  | cons c u2 ih =>
    intro hmin a v d heq
    cases a with
    | nil =>
      rw [List.nil_append] at heq
      exact absurd (head_occurrence_contains p hp (c :: u2) v d (by simp) heq.symm) hmin
    | cons c2 a2 =>
      injection heq with h1 h2
      have hmin2 : ¬ ContainsSub p (u2 ++ p.dropLast) := by
        rintro ⟨x, y, hxy⟩
        exact hmin ⟨c :: x, y, by rw [List.cons_append, hxy]; rfl⟩
      obtain ⟨w, hw⟩ := ih hmin2 a2 v d h2
      exact ⟨w, by rw [hw, ← h1, List.cons_append]⟩

/-- If the text decomposes as `a ++ p ++ b ++ q ++ c`, then after
splitting at the first occurrence of `p`, the remainder still contains
`q`. -/
theorem close_in_rest (p q : Str) (hp : p ≠ []) (l u rest a b c : Str)
    (hsplit : splitFirst p l = some (u, rest))
    (hdec : l = a ++ p ++ b ++ q ++ c) : ContainsSub q rest := by
  obtain ⟨heq, hmin⟩ := splitFirst_some p hp l u rest hsplit
  have heq2 : u ++ (p ++ rest) = a ++ (p ++ (b ++ q ++ c)) := by
    have h3 : u ++ (p ++ rest) = l := by rw [heq]; simp [List.append_assoc]
    rw [h3, hdec]
    simp [List.append_assoc]
  obtain ⟨w, hw⟩ := firstOcc_prefix p hp u hmin a (rest) (b ++ q ++ c) heq2
  subst hw
  rw [List.append_assoc u w] at heq2
  have hcanc := List.append_cancel_left heq2
  have hdrop := congrArg (List.drop p.length) hcanc
  rw [List.drop_left] at hdrop
  rw [show w ++ (p ++ (b ++ q ++ c)) = (w ++ p) ++ (b ++ (q ++ c)) by simp [List.append_assoc]] at hdrop
  rw [List.drop_append_eq_append_drop] at hdrop
  have h0 : p.length - (w ++ p).length = 0 := by simp
  rw [h0, List.drop_zero] at hdrop
  exact ⟨List.drop p.length (w ++ p) ++ b, c, by rw [hdrop]; simp [List.append_assoc]⟩

/-- C8: `extract_json_block` returns the interior of the first
triple-backtick block tagged `json`, trimmed of surrounding whitespace,
when such a block exists (first-ness expressed by the two
no-earlier-occurrence conditions), and returns an absent result (`none`,
not an empty string) exactly when no such block exists. -/
theorem C8_extract_json_block_spec (text : String) :
    (extract_json_block text = none ↔
      ¬ ∃ a b c : Str, text.toList = a ++ jsonOpenFence ++ b ++ jsonCloseFence ++ c) ∧
    (∀ s : String, extract_json_block text = some s →
      ∃ a b c : Str, text.toList = a ++ jsonOpenFence ++ b ++ jsonCloseFence ++ c ∧
        ¬ ContainsSub jsonOpenFence (a ++ jsonOpenFence.dropLast) ∧
        ¬ ContainsSub jsonCloseFence (b ++ jsonCloseFence.dropLast) ∧
        s = String.mk (pyStrip b)) := by
  have hp : jsonOpenFence ≠ [] := by decide
  have hq : jsonCloseFence ≠ [] := by decide
  unfold extract_json_block
  rcases h1 : splitFirst jsonOpenFence text.toList with _ | ⟨u, rest⟩
  · constructor
    · constructor
      · intro _ hex
        obtain ⟨a, b, c, hdec⟩ := hex
        have hno := (splitFirst_none jsonOpenFence hp text.toList).mp h1
        exact hno ⟨a, b ++ jsonCloseFence ++ c, by rw [hdec]; simp [List.append_assoc]⟩
      · intro _; rfl
    · intro s hs
      exact absurd hs (by simp)
  · obtain ⟨heq, hmin⟩ := splitFirst_some jsonOpenFence hp text.toList u rest h1
    dsimp only
    rcases h2 : splitFirst jsonCloseFence rest with _ | ⟨b, c⟩
    · constructor
      · constructor
        · intro _ hex
          obtain ⟨a, b, c, hdec⟩ := hex
          have hcl := close_in_rest jsonOpenFence jsonCloseFence hp text.toList u rest a b c h1 hdec
          exact (splitFirst_none jsonCloseFence hq rest).mp h2 hcl
        · intro _; rfl
      · intro s hs
        exact absurd hs (by simp)
    · obtain ⟨heq2, hmin2⟩ := splitFirst_some jsonCloseFence hq rest b c h2
      constructor
      · constructor
        · intro hcontra
          exact absurd hcontra (by simp)
        · intro hn
          exact absurd ⟨u, b, c, by rw [heq, heq2]; simp [List.append_assoc]⟩ hn
      · intro s hs
        injection hs with hs
        refine ⟨u, b, c, by rw [heq, heq2]; simp [List.append_assoc], hmin, hmin2, hs.symm⟩

/-- Witness for C8 at a concrete response text. -/
theorem C8_extract_json_block_spec_witness :
    ∃ a b c : Str, ("pre ```json  x  ``` post").toList =
        a ++ jsonOpenFence ++ b ++ jsonCloseFence ++ c ∧
      ¬ ContainsSub jsonOpenFence (a ++ jsonOpenFence.dropLast) ∧
      ¬ ContainsSub jsonCloseFence (b ++ jsonCloseFence.dropLast) ∧
      ("x") = String.mk (pyStrip b) :=
  (C8_extract_json_block_spec ("pre ```json  x  ``` post")).2 ("x") (by decide)
